import Mathlib

/-!
Verification of the electromagnetic-interference engine of the
`inducao_duto_travessia` repository (file `emi_system.py`).

The Python code is shallowly embedded: floats become real numbers `ℝ`,
Python complex numbers become `ℂ`, `np.sqrt` on complex arguments becomes the
principal square root `csqrt`, `np.angle` becomes `Complex.arg`, and the
remaining numpy functions become the corresponding Mathlib functions on `ℝ`.
A second family of definitions (suffix `F`) tracks the poisoned float values
(`nan` from `np.sqrt`/`np.log` of negative arguments, division by zero)
through an `Option` monad: `none` stands for a poisoned (NaN/undefined)
result, `some x` for an ordinary finite float.
-/

noncomputable section

/-- Physical constant `MU_0 = 4π·1e-7` H/m (`emi_system.py`, line 8). -/
def MU_0 : ℝ := 4 * Real.pi * 1e-7

/-- Physical constant `EPSILON_0 = 8.854187817e-12` F/m (`emi_system.py`, line 9). -/
def EPSILON_0 : ℝ := 8.854187817e-12

/-- Angular frequency `OMEGA = 2π·60` rad/s (`emi_system.py`, line 10). -/
def OMEGA : ℝ := 2 * Real.pi * 60

/-- Coordinates dataclass `Coordenadas(x, y, z=0.0)`. -/
structure Coordenadas where
  x : ℝ
  y : ℝ
  z : ℝ := 0

/-- Two-layer soil parameters, dataclass `ParametrosSolo`. -/
structure ParametrosSolo where
  resistividade_camada1 : ℝ
  resistividade_camada2 : ℝ
  espessura_camada1 : ℝ
  permissividade_relativa : ℝ := 10

/-- Class `Solo`: wraps its `ParametrosSolo`. -/
structure Solo where
  parametros : ParametrosSolo

/-- Method `Solo.resistividade_equivalente_uniforme` (Tsiamitros two-layer to
uniform soil reduction), `emi_system.py` lines 37-57, translated verbatim. -/
def Solo.resistividade_equivalente_uniforme (s : Solo) (frequencia : ℝ := 60) : ℝ :=
  let rho1 := s.parametros.resistividade_camada1
  let rho2 := s.parametros.resistividade_camada2
  let h1 := s.parametros.espessura_camada1
  let mu1 := MU_0
  let f := frequencia
  let sqrt_rho1_inv := Real.sqrt (1 / rho1)
  let sqrt_rho2_inv := Real.sqrt (1 / rho2)
  let exp_term := Real.exp (-2 * h1 * Real.sqrt (Real.pi * f * mu1 / rho1))
  let numerator := (sqrt_rho1_inv + sqrt_rho2_inv) + (sqrt_rho1_inv - sqrt_rho2_inv) * exp_term
  let denominator := (sqrt_rho1_inv + sqrt_rho2_inv) - (sqrt_rho1_inv - sqrt_rho2_inv) * exp_term
  rho1 * (numerator / denominator) ^ 2

/-- Class `Cabo`: an aerial conductor (position, phasor current, radius, role). -/
structure Cabo where
  coordenadas : Coordenadas
  corrente : ℂ
  raio : ℝ
  tipo : String := "fase"

/-- Class `LinhaTransmissao`: conductor list plus shared soil. -/
structure LinhaTransmissao where
  cabos : List Cabo
  solo : Solo

/-- Principal complex square root, modelling `np.sqrt` on a complex argument
(`numpy` returns the root with non-negative real part). -/
def csqrt (z : ℂ) : ℂ := z ^ ((1 : ℂ) / 2)

/-- Class `Duto`: buried pipeline geometry and material. -/
structure Duto where
  coordenadas : Coordenadas
  diametro : ℝ
  espessura_parede : ℝ
  espessura_revestimento : ℝ
  material : String := "aco"

/-- Nested helper `struve_bessel_approx` of
`LinhaTransmissao.calcular_impedancia_mutua_carson_fechada`
(`emi_system.py` lines 111-116): piecewise Struve/Bessel approximation with
threshold `|u| < 0.1`. -/
def struve_bessel_approx (u : ℂ) : ℂ :=
  if Complex.abs u < 0.1 then
    ((2 / Real.pi : ℝ) : ℂ) * (1 - u ^ 2 / 8 + u ^ 4 / 192)
  else
    ((2 / Real.pi : ℝ) : ℂ) *
      ((1 - Real.exp (-(Complex.abs u)) * Real.cos (Complex.arg u) : ℝ) : ℂ)

/-- Method `LinhaTransmissao.calcular_impedancia_mutua_carson_fechada`
(`emi_system.py` lines 78-123): closed-form Carson/Theodoulidis mutual
impedance between an aerial conductor and the pipeline, translated verbatim
(the soil equivalent resistivity is taken at the default frequency 60 Hz). -/
def LinhaTransmissao.calcular_impedancia_mutua_carson_fechada
    (lt : LinhaTransmissao) (cabo : Cabo) (duto : Duto) : ℂ :=
  let x_cabo := cabo.coordenadas.x
  let y_cabo := cabo.coordenadas.y
  let x_duto := duto.coordenadas.x
  let z_duto := duto.coordenadas.z
  let H : ℝ := y_cabo + |z_duto|
  let D : ℝ := x_duto - x_cabo
  let D_ij : ℝ := Real.sqrt ((x_duto - x_cabo) ^ 2 + (y_cabo - z_duto) ^ 2)
  let D_ij_prime : ℝ := Real.sqrt ((x_duto - x_cabo) ^ 2 + (y_cabo + |z_duto|) ^ 2)
  let rho : ℝ := lt.solo.resistividade_equivalente_uniforme
  let epsilon_r : ℝ := lt.solo.parametros.permissividade_relativa
  let Z_primeira : ℂ :=
    Complex.I * (OMEGA : ℂ) * (MU_0 : ℂ) / (2 * (Real.pi : ℂ)) *
      ((Real.log (D_ij_prime / D_ij) : ℝ) : ℂ)
  let gamma_propagacao : ℂ :=
    csqrt (Complex.I * (OMEGA : ℂ) * (MU_0 : ℂ) / (rho : ℂ) -
      ((OMEGA ^ 2 * MU_0 * EPSILON_0 * epsilon_r : ℝ) : ℂ))
  let u1 : ℂ := gamma_propagacao * ((H : ℂ) - Complex.I * (D : ℂ))
  let u2 : ℂ := gamma_propagacao * ((H : ℂ) + Complex.I * (D : ℂ))
  let termo1 : ℂ := (Real.pi : ℂ) / (2 * u1) * struve_bessel_approx u1 - 1 / u1 ^ 2
  let termo2 : ℂ := (Real.pi : ℂ) / (2 * u2) * struve_bessel_approx u2 - 1 / u2 ^ 2
  let Z_segunda : ℂ := Complex.I * (OMEGA : ℂ) * (MU_0 : ℂ) / (2 * (Real.pi : ℂ)) * (termo1 + termo2)
  Z_primeira + Z_segunda

/-- Derived attribute `raio_externo = diametro / 2` set in `Duto.__init__`. -/
def Duto.raio_externo (d : Duto) : ℝ := d.diametro / 2

/-- Derived attribute `raio_interno = raio_externo - espessura_parede` set in
`Duto.__init__`.  The constructor performs no validation whatsoever, so this
value can be zero or negative. -/
def Duto.raio_interno (d : Duto) : ℝ := d.raio_externo - d.espessura_parede

/-- Resistivity entry of `_obter_propriedades_material`: `aco ↦ 1.72e-7`,
`aluminio ↦ 2.82e-8`, any other tag falls back to `aco`. -/
def Duto.resistividade_material (d : Duto) : ℝ :=
  if d.material = "aluminio" then 2.82e-8 else 1.72e-7

/-- Relative permeability entry of `_obter_propriedades_material`. -/
def Duto.permeabilidade_relativa_material (d : Duto) : ℝ :=
  if d.material = "aluminio" then 1 else 300

/-- Coating resistivity attribute set in `Duto.__init__` (1e8 Ω·m). -/
def Duto.resistividade_revestimento (_ : Duto) : ℝ := 1e8

/-- Coating relative permittivity attribute set in `Duto.__init__` (2.3). -/
def Duto.permissividade_revestimento (_ : Duto) : ℝ := 2.3

/-- Method `Duto._calcular_rmg_tubular` (`emi_system.py` lines 189-196):
geometric mean radius of the tubular conductor, translated verbatim over `ℝ`. -/
def Duto.calcular_rmg_tubular (d : Duto) : ℝ :=
  let r_ext := d.raio_externo
  let r_int := d.raio_interno
  let ln_rmg := Real.log r_ext -
    (r_ext ^ 4 - r_int ^ 2 * r_ext ^ 2 + r_int ^ 4 * (3 / 4 + Real.log (r_int / r_ext))) /
      (r_ext ^ 2 - r_int ^ 2) ^ 2
  Real.exp ln_rmg

/-- Inline piecewise Struve/Bessel stand-in used by
`Duto.calcular_impedancia_propria` (`emi_system.py` lines 180-183):
`(2/π)(1 - u²/8)` when `|u| < 0.1`, otherwise
`(2/π)(1 - exp(-|Re u|)·cos(Im u))`.  Note it is NOT the same function as
`struve_bessel_approx`. -/
def struve_bessel_propria (u : ℂ) : ℂ :=
  if Complex.abs u < 0.1 then
    ((2 / Real.pi : ℝ) : ℂ) * (1 - u ^ 2 / 8)
  else
    ((2 / Real.pi : ℝ) : ℂ) * ((1 - Real.exp (-|u.re|) * Real.cos u.im : ℝ) : ℂ)

/-- Method `Duto.calcular_impedancia_propria` (`emi_system.py` lines 156-187):
pipeline self-impedance, translated verbatim; the Carson correction term is
`struve_bessel_propria` evaluated at `u = γ·2·|z|`. -/
def Duto.calcular_impedancia_propria (d : Duto) (solo : Solo) : ℂ :=
  let rho_d := d.resistividade_material
  let mu_d := d.permeabilidade_relativa_material * MU_0
  let Z_interno : ℂ :=
    ((Real.sqrt (rho_d * mu_d * OMEGA) / (Real.pi * 2 * d.raio_externo * Real.sqrt 2) : ℝ) : ℂ) *
      (1 + Complex.I)
  let rho_solo := solo.resistividade_equivalente_uniforme
  let RMG_tu := d.calcular_rmg_tubular
  let Z_ext_1 : ℂ :=
    Complex.I * (OMEGA : ℂ) * (MU_0 : ℂ) / (2 * (Real.pi : ℂ)) *
      ((Real.log (2 * |d.coordenadas.z| / RMG_tu) : ℝ) : ℂ)
  let gamma : ℂ := csqrt (Complex.I * (OMEGA : ℂ) * (MU_0 : ℂ) / (rho_solo : ℂ))
  let u : ℂ := gamma * 2 * ((|d.coordenadas.z| : ℝ) : ℂ)
  let termo_integral : ℂ := struve_bessel_propria u
  let Z_ext_2 : ℂ := Complex.I * (OMEGA : ℂ) * (MU_0 : ℂ) / (2 * (Real.pi : ℂ)) * termo_integral
  Z_interno + Z_ext_1 + Z_ext_2

/-- Method `Duto.calcular_admitancia_shunt` (`emi_system.py` lines 198-206). -/
def Duto.calcular_admitancia_shunt (d : Duto) : ℂ :=
  let G : ℝ := Real.pi * 2 * d.raio_externo / (d.resistividade_revestimento * d.espessura_revestimento)
  let C : ℝ := EPSILON_0 * d.permissividade_revestimento * Real.pi * 2 * d.raio_externo / d.espessura_revestimento
  (G : ℂ) + Complex.I * (OMEGA : ℂ) * (C : ℂ)

/-- Method `Duto.calcular_constante_propagacao` (`emi_system.py` lines 214-218). -/
def Duto.calcular_constante_propagacao (d : Duto) (solo : Solo) : ℂ :=
  csqrt (d.calcular_impedancia_propria solo * d.calcular_admitancia_shunt)

/-- Class `AnaliseInterferencia`: transmission line plus pipeline. -/
structure AnaliseInterferencia where
  lt : LinhaTransmissao
  duto : Duto

/-- Method `AnaliseInterferencia.calcular_tensao_induzida_total`
(`emi_system.py` lines 225-238): superposition
`Σ_i Z_mutua(cabo_i, duto) · I_i · L` over the conductor list. -/
def AnaliseInterferencia.calcular_tensao_induzida_total
    (a : AnaliseInterferencia) (comprimento_exposicao : ℝ := 1) : ℂ :=
  (a.lt.cabos.map fun cabo =>
    a.lt.calcular_impedancia_mutua_carson_fechada cabo a.duto * cabo.corrente *
      ((comprimento_exposicao : ℝ) : ℂ)).sum

/-- Replace each conductor current `I_i` of a transmission line by `k·I_i`
(the scaling considered by the superposition-linearity property). -/
def escalar_correntes (k : ℝ) (lt : LinhaTransmissao) : LinhaTransmissao :=
  ⟨lt.cabos.map fun c => { c with corrente := (k : ℂ) * c.corrente }, lt.solo⟩

/-- Method `AnaliseInterferencia.avaliar_risco_corrosao_ac`
(`emi_system.py` lines 275-282): NACE TG-327 AC-corrosion risk classes.
The Low/Moderate/High classes are rendered by the strings
`"Baixo"`, `"Moderado"`, `"Muito Alto"`. -/
def AnaliseInterferencia.avaliar_risco_corrosao_ac
    (_ : AnaliseInterferencia) (densidade_corrente : ℝ) : String :=
  if densidade_corrente < 20e-3 then "Baixo"
  else if densidade_corrente < 100e-3 then "Moderado"
  else "Muito Alto"

/-- Value of the report field `comprimento_caracteristico_m`: either a finite
length or the infinite sentinel `np.inf`. -/
inductive ComprimentoCaracteristico where
  | finito (valor : ℝ)
  | infinito

/-- Report-assembly expression
`1 / gamma.real if gamma.real > 0 else np.inf`
(`AnaliseInterferencia.gerar_relatorio_analise`, `emi_system.py` line 309).
It is a total function of `γ`: no exception path exists. -/
def comprimento_caracteristico_relatorio (gamma : ℂ) : ComprimentoCaracteristico :=
  if 0 < gamma.re then ComprimentoCaracteristico.finito (1 / gamma.re)
  else ComprimentoCaracteristico.infinito

/-- Float division, tracking the Python `ZeroDivisionError`/poisoned case as
`none`. -/
def divF (x y : ℝ) : Option ℝ := if y = 0 then none else some (x / y)

/-- Float `np.sqrt`: `nan` (modelled as `none`) on negative input. -/
def sqrtF (x : ℝ) : Option ℝ := if x < 0 then none else some (Real.sqrt x)

/-- Float `np.log`: `nan`/`-inf` (modelled as `none`) on non-positive input. -/
def logF (x : ℝ) : Option ℝ := if x ≤ 0 then none else some (Real.log x)

/-- Float-semantics variant of `Solo.resistividade_equivalente_uniforme`:
identical formula, but each `np.sqrt` and division is routed through the
poison-tracking primitives, so `none` is returned exactly when the Python code
would produce a NaN (or raise `ZeroDivisionError`) instead of a number.
The code contains no validation and no `DomainError` path. -/
def Solo.resistividade_equivalente_uniformeF (s : Solo) (frequencia : ℝ := 60) : Option ℝ := do
  let rho1 := s.parametros.resistividade_camada1
  let rho2 := s.parametros.resistividade_camada2
  let h1 := s.parametros.espessura_camada1
  let inv1 ← divF 1 rho1
  let sqrt_rho1_inv ← sqrtF inv1
  let inv2 ← divF 1 rho2
  let sqrt_rho2_inv ← sqrtF inv2
  let rad ← divF (Real.pi * frequencia * MU_0) rho1
  let sq ← sqrtF rad
  let exp_term := Real.exp (-2 * h1 * sq)
  let numerator := (sqrt_rho1_inv + sqrt_rho2_inv) + (sqrt_rho1_inv - sqrt_rho2_inv) * exp_term
  let denominator := (sqrt_rho1_inv + sqrt_rho2_inv) - (sqrt_rho1_inv - sqrt_rho2_inv) * exp_term
  let ratio ← divF numerator denominator
  pure (rho1 * ratio ^ 2)

/-- Float-semantics variant of `Duto._calcular_rmg_tubular`: identical formula
with `np.log` and the division routed through the poison-tracking primitives.
`Duto.__init__` performs no validation, so a degenerate geometry reaches this
computation and poisons it (`none` = NaN). -/
def Duto.calcular_rmg_tubularF (d : Duto) : Option ℝ := do
  let r_ext := d.raio_externo
  let r_int := d.raio_interno
  let log_ext ← logF r_ext
  let log_ratio ← logF (r_int / r_ext)
  let num := r_ext ^ 4 - r_int ^ 2 * r_ext ^ 2 + r_int ^ 4 * (3 / 4 + log_ratio)
  let frac ← divF num ((r_ext ^ 2 - r_int ^ 2) ^ 2)
  pure (Real.exp (log_ext - frac))

/-- Concrete degenerate pipeline: wall thickness (0.2 m) exceeds the outer
radius (0.1095 m), so the inner radius is negative. -/
def duto_degenerado : Duto := ⟨⟨0, 0, -1.5⟩, 0.219, 0.2, 0.003, "aco"⟩

end

/-- The principal complex square root inverts squaring on the open right
half-plane (where `numpy`'s principal branch lands). -/
theorem csqrt_sq (z : ℂ) (hz : 0 < z.re) : csqrt (z ^ 2) = z := by
  have h := Complex.sq_cpow_two_inv hz
  rw [csqrt, one_div]
  exact h

/-- Shared helper: with equal layer resistivities the Tsiamitros reduction
returns the common resistivity exactly, for every thickness and frequency. -/
theorem resistividade_equivalente_camadas_iguais
    (rho h1 eps f : ℝ) (hrho : 0 < rho) :
    Solo.resistividade_equivalente_uniforme ⟨⟨rho, rho, h1, eps⟩⟩ f = rho := by
  have hs : 0 < Real.sqrt (1 / rho) := Real.sqrt_pos.2 (one_div_pos.mpr hrho)
  simp only [Solo.resistividade_equivalente_uniforme, sub_self, zero_mul, add_zero, sub_zero]
  rw [div_self (by linarith), one_pow, mul_one]

/-- C5: for every layer thickness h1 > 0 and frequency f > 0, if the two layer
resistivities are equal (ρ1 = ρ2 > 0) then `resistividade_equivalente_uniforme`
returns exactly ρ1. -/
theorem resistividade_equivalente_homogenea
    (rho1 rho2 h1 eps f : ℝ) (hrho : 0 < rho1) (heq : rho1 = rho2)
    (hh1 : 0 < h1) (hf : 0 < f) :
    Solo.resistividade_equivalente_uniforme ⟨⟨rho1, rho2, h1, eps⟩⟩ f = rho1 := by
  subst heq
  exact resistividade_equivalente_camadas_iguais rho1 h1 eps f hrho

/-- Witness for C5 at the reference soil (ρ1 = ρ2 = 100 Ω·m, h1 = 2 m, 60 Hz). -/
theorem resistividade_equivalente_homogenea_witness :
    0 < (100 : ℝ) ∧ (100 : ℝ) = 100 ∧ 0 < (2 : ℝ) ∧ 0 < (60 : ℝ) ∧
      Solo.resistividade_equivalente_uniforme ⟨⟨100, 100, 2, 10⟩⟩ 60 = 100 :=
  ⟨by norm_num, rfl, by norm_num, by norm_num,
    resistividade_equivalente_homogenea 100 100 2 10 60 (by norm_num) rfl (by norm_num)
      (by norm_num)⟩

/-- Algebraic core of the Tsiamitros reduction, case ρ1 < ρ2: the reduction
value lies strictly between the two layer resistivities. -/
theorem tsiamitros_ratio_bounds (rho1 rho2 a1 a2 k : ℝ)
    (h1p : 0 < rho1) (h2p : 0 < rho2)
    (ha1 : a1 ^ 2 * rho1 = 1) (ha2 : a2 ^ 2 * rho2 = 1)
    (ha1p : 0 < a1) (ha2p : 0 < a2) (hk0 : 0 < k) (hk1 : k < 1)
    (hlt : rho1 < rho2) :
    rho1 < rho1 * (((a1 + a2) + (a1 - a2) * k) / ((a1 + a2) - (a1 - a2) * k)) ^ 2 ∧
    rho1 * (((a1 + a2) + (a1 - a2) * k) / ((a1 + a2) - (a1 - a2) * k)) ^ 2 < rho2 := by
  have ha12 : a2 < a1 := by
    by_contra hcon
    push_neg at hcon
    have hsq : a1 ^ 2 ≤ a2 ^ 2 := by nlinarith
    nlinarith [mul_lt_mul_of_pos_left hlt (mul_pos ha2p ha2p)]
  have hDm : 0 < (a1 + a2) - (a1 - a2) * k := by
    nlinarith [mul_pos ha1p (sub_pos.2 hk1), mul_pos ha2p (show (0 : ℝ) < 1 + k by linarith)]
  have hN : 0 < (a1 + a2) + (a1 - a2) * k := by
    nlinarith [mul_pos (sub_pos.2 ha12) hk0]
  have hNDm : (a1 + a2) - (a1 - a2) * k < (a1 + a2) + (a1 - a2) * k := by
    nlinarith [mul_pos (sub_pos.2 ha12) hk0]
  constructor
  · have hratio : 1 < ((a1 + a2) + (a1 - a2) * k) / ((a1 + a2) - (a1 - a2) * k) :=
      (one_lt_div hDm).2 hNDm
    have hr2 : 1 < (((a1 + a2) + (a1 - a2) * k) / ((a1 + a2) - (a1 - a2) * k)) ^ 2 :=
      one_lt_pow hratio two_ne_zero
    nlinarith
  · have hkey : a2 * ((a1 + a2) + (a1 - a2) * k) < a1 * ((a1 + a2) - (a1 - a2) * k) := by
      nlinarith [mul_pos (mul_pos (sub_pos.2 ha12) (show (0 : ℝ) < a1 + a2 by linarith))
        (sub_pos.2 hk1)]
    have hsq : (a2 * ((a1 + a2) + (a1 - a2) * k)) ^ 2 <
        (a1 * ((a1 + a2) - (a1 - a2) * k)) ^ 2 :=
      pow_lt_pow_left hkey (le_of_lt (mul_pos ha2p hN)) (by norm_num)
    have e1 : rho1 * rho2 * (a2 * ((a1 + a2) + (a1 - a2) * k)) ^ 2 =
        rho1 * ((a1 + a2) + (a1 - a2) * k) ^ 2 := by
      linear_combination (rho1 * ((a1 + a2) + (a1 - a2) * k) ^ 2) * ha2
    have e2 : rho1 * rho2 * (a1 * ((a1 + a2) - (a1 - a2) * k)) ^ 2 =
        rho2 * ((a1 + a2) - (a1 - a2) * k) ^ 2 := by
      linear_combination (rho2 * ((a1 + a2) - (a1 - a2) * k) ^ 2) * ha1
    have hgoal : rho1 * ((a1 + a2) + (a1 - a2) * k) ^ 2 <
        rho2 * ((a1 + a2) - (a1 - a2) * k) ^ 2 := by
      have h3 := mul_lt_mul_of_pos_left hsq (mul_pos h1p h2p)
      rw [e1, e2] at h3
      exact h3
    rw [div_pow, ← mul_div_assoc,
      div_lt_iff (by positivity : (0 : ℝ) < ((a1 + a2) - (a1 - a2) * k) ^ 2)]
    exact hgoal

/-- Algebraic core of the Tsiamitros reduction, case ρ2 < ρ1: the reduction
value again lies strictly between the two layer resistivities. -/
theorem tsiamitros_ratio_bounds_ge (rho1 rho2 a1 a2 k : ℝ)
    (h1p : 0 < rho1) (h2p : 0 < rho2)
    (ha1 : a1 ^ 2 * rho1 = 1) (ha2 : a2 ^ 2 * rho2 = 1)
    (ha1p : 0 < a1) (ha2p : 0 < a2) (hk0 : 0 < k) (hk1 : k < 1)
    (hlt : rho2 < rho1) :
    rho2 < rho1 * (((a1 + a2) + (a1 - a2) * k) / ((a1 + a2) - (a1 - a2) * k)) ^ 2 ∧
    rho1 * (((a1 + a2) + (a1 - a2) * k) / ((a1 + a2) - (a1 - a2) * k)) ^ 2 < rho1 := by
  have ha12 : a1 < a2 := by
    by_contra hcon
    push_neg at hcon
    have hsq : a2 ^ 2 ≤ a1 ^ 2 := by nlinarith
    nlinarith [mul_lt_mul_of_pos_left hlt (mul_pos ha1p ha1p)]
  have hDm : 0 < (a1 + a2) - (a1 - a2) * k := by
    nlinarith [mul_pos ha2p (show (0 : ℝ) < 1 + k by linarith),
      mul_pos (sub_pos.2 ha12) hk0]
  have hN : 0 < (a1 + a2) + (a1 - a2) * k := by
    nlinarith [mul_pos ha1p (sub_pos.2 hk1), mul_pos ha2p (show (0 : ℝ) < 1 + k by linarith)]
  have hNDm : (a1 + a2) + (a1 - a2) * k < (a1 + a2) - (a1 - a2) * k := by
    nlinarith [mul_pos (sub_pos.2 ha12) hk0]
  constructor
  · have hkey : a1 * ((a1 + a2) - (a1 - a2) * k) < a2 * ((a1 + a2) + (a1 - a2) * k) := by
      nlinarith [mul_pos (mul_pos (sub_pos.2 ha12) (show (0 : ℝ) < a1 + a2 by linarith))
        (sub_pos.2 hk1)]
    have hsq : (a1 * ((a1 + a2) - (a1 - a2) * k)) ^ 2 <
        (a2 * ((a1 + a2) + (a1 - a2) * k)) ^ 2 :=
      pow_lt_pow_left hkey (le_of_lt (mul_pos ha1p hDm)) (by norm_num)
    have e1 : rho1 * rho2 * (a2 * ((a1 + a2) + (a1 - a2) * k)) ^ 2 =
        rho1 * ((a1 + a2) + (a1 - a2) * k) ^ 2 := by
      linear_combination (rho1 * ((a1 + a2) + (a1 - a2) * k) ^ 2) * ha2
    have e2 : rho1 * rho2 * (a1 * ((a1 + a2) - (a1 - a2) * k)) ^ 2 =
        rho2 * ((a1 + a2) - (a1 - a2) * k) ^ 2 := by
      linear_combination (rho2 * ((a1 + a2) - (a1 - a2) * k) ^ 2) * ha1
    have hgoal : rho2 * ((a1 + a2) - (a1 - a2) * k) ^ 2 <
        rho1 * ((a1 + a2) + (a1 - a2) * k) ^ 2 := by
      have h3 := mul_lt_mul_of_pos_left hsq (mul_pos h1p h2p)
      rw [e1, e2] at h3
      exact h3
    rw [div_pow, ← mul_div_assoc,
      lt_div_iff (by positivity : (0 : ℝ) < ((a1 + a2) - (a1 - a2) * k) ^ 2)]
    exact hgoal
  · have hratio0 : 0 < ((a1 + a2) + (a1 - a2) * k) / ((a1 + a2) - (a1 - a2) * k) :=
      div_pos hN hDm
    have hratio : ((a1 + a2) + (a1 - a2) * k) / ((a1 + a2) - (a1 - a2) * k) < 1 :=
      (div_lt_one hDm).2 hNDm
    nlinarith [mul_pos hratio0 hratio0]

/-- C10: for all strictly positive ρ1, ρ2, h1 and frequency,
`resistividade_equivalente_uniforme` returns a strictly positive value lying
between min(ρ1, ρ2) and max(ρ1, ρ2), strictly between them when ρ1 ≠ ρ2
(finiteness is implicit in the value being a real number). -/
theorem resistividade_equivalente_entre_camadas
    (rho1 rho2 h1 eps f : ℝ) (h1p : 0 < rho1) (h2p : 0 < rho2) (hh : 0 < h1) (hf : 0 < f) :
    0 < Solo.resistividade_equivalente_uniforme ⟨⟨rho1, rho2, h1, eps⟩⟩ f ∧
    min rho1 rho2 ≤ Solo.resistividade_equivalente_uniforme ⟨⟨rho1, rho2, h1, eps⟩⟩ f ∧
    Solo.resistividade_equivalente_uniforme ⟨⟨rho1, rho2, h1, eps⟩⟩ f ≤ max rho1 rho2 ∧
    (rho1 ≠ rho2 →
      min rho1 rho2 < Solo.resistividade_equivalente_uniforme ⟨⟨rho1, rho2, h1, eps⟩⟩ f ∧
      Solo.resistividade_equivalente_uniforme ⟨⟨rho1, rho2, h1, eps⟩⟩ f < max rho1 rho2) := by
  have hmu : 0 < MU_0 := by
    rw [MU_0]
    positivity
  have hrad : 0 < Real.pi * f * MU_0 / rho1 :=
    div_pos (mul_pos (mul_pos Real.pi_pos hf) hmu) h1p
  have hk0 : 0 < Real.exp (-2 * h1 * Real.sqrt (Real.pi * f * MU_0 / rho1)) := Real.exp_pos _
  have hk1 : Real.exp (-2 * h1 * Real.sqrt (Real.pi * f * MU_0 / rho1)) < 1 := by
    rw [Real.exp_lt_one_iff]
    have hs : 0 < Real.sqrt (Real.pi * f * MU_0 / rho1) := Real.sqrt_pos.2 hrad
    nlinarith [mul_pos hh hs]
  have ha1p : 0 < Real.sqrt (1 / rho1) := Real.sqrt_pos.2 (one_div_pos.mpr h1p)
  have ha2p : 0 < Real.sqrt (1 / rho2) := Real.sqrt_pos.2 (one_div_pos.mpr h2p)
  have ha1 : Real.sqrt (1 / rho1) ^ 2 * rho1 = 1 := by
    rw [Real.sq_sqrt (le_of_lt (one_div_pos.mpr h1p))]
    exact one_div_mul_cancel (ne_of_gt h1p)
  have ha2 : Real.sqrt (1 / rho2) ^ 2 * rho2 = 1 := by
    rw [Real.sq_sqrt (le_of_lt (one_div_pos.mpr h2p))]
    exact one_div_mul_cancel (ne_of_gt h2p)
  rcases lt_trichotomy rho1 rho2 with hlt | heq | hgt
  · have hbounds := tsiamitros_ratio_bounds rho1 rho2 (Real.sqrt (1 / rho1))
      (Real.sqrt (1 / rho2)) (Real.exp (-2 * h1 * Real.sqrt (Real.pi * f * MU_0 / rho1)))
      h1p h2p ha1 ha2 ha1p ha2p hk0 hk1 hlt
    simp only [Solo.resistividade_equivalente_uniforme]
    rw [min_eq_left hlt.le, max_eq_right hlt.le]
    exact ⟨lt_trans h1p hbounds.1, hbounds.1.le, hbounds.2.le, fun _ => hbounds⟩
  · subst heq
    rw [resistividade_equivalente_camadas_iguais rho1 h1 eps f h1p, min_self, max_self]
    exact ⟨h1p, le_refl _, le_refl _, fun hne => absurd rfl hne⟩
  · have hbounds := tsiamitros_ratio_bounds_ge rho1 rho2 (Real.sqrt (1 / rho1))
      (Real.sqrt (1 / rho2)) (Real.exp (-2 * h1 * Real.sqrt (Real.pi * f * MU_0 / rho1)))
      h1p h2p ha1 ha2 ha1p ha2p hk0 hk1 hgt
    simp only [Solo.resistividade_equivalente_uniforme]
    rw [min_eq_right hgt.le, max_eq_left hgt.le]
    exact ⟨lt_trans h2p hbounds.1, hbounds.1.le, hbounds.2.le, fun _ => hbounds⟩

/-- Witness for C10 at the reference soil (ρ1 = 100, ρ2 = 1000, h1 = 2, 60 Hz). -/
theorem resistividade_equivalente_entre_camadas_witness :
    0 < Solo.resistividade_equivalente_uniforme ⟨⟨100, 1000, 2, 10⟩⟩ 60 ∧
    min (100 : ℝ) 1000 ≤ Solo.resistividade_equivalente_uniforme ⟨⟨100, 1000, 2, 10⟩⟩ 60 ∧
    Solo.resistividade_equivalente_uniforme ⟨⟨100, 1000, 2, 10⟩⟩ 60 ≤ max (100 : ℝ) 1000 ∧
    ((100 : ℝ) ≠ 1000 →
      min (100 : ℝ) 1000 < Solo.resistividade_equivalente_uniforme ⟨⟨100, 1000, 2, 10⟩⟩ 60 ∧
      Solo.resistividade_equivalente_uniforme ⟨⟨100, 1000, 2, 10⟩⟩ 60 < max (100 : ℝ) 1000) :=
  resistividade_equivalente_entre_camadas 100 1000 2 10 60 (by norm_num) (by norm_num)
    (by norm_num) (by norm_num)

/-- C6: `avaliar_risco_corrosao_ac` classifies a current density J as the Low
class (`"Baixo"`) exactly when J < 20e-3, as the Moderate class (`"Moderado"`)
exactly when 20e-3 ≤ J < 100e-3, and as the High class (`"Muito Alto"`)
otherwise; both boundaries are strict less-than, as the sample points
19.999e-3, 20.001e-3, 99.999e-3 and 100.001e-3 confirm. -/
theorem avaliar_risco_corrosao_ac_caracterizacao (a : AnaliseInterferencia) :
    (∀ J : ℝ,
      (a.avaliar_risco_corrosao_ac J = "Baixo" ↔ J < 20e-3) ∧
      (a.avaliar_risco_corrosao_ac J = "Moderado" ↔ 20e-3 ≤ J ∧ J < 100e-3) ∧
      (a.avaliar_risco_corrosao_ac J = "Muito Alto" ↔ 100e-3 ≤ J)) ∧
    a.avaliar_risco_corrosao_ac 19.999e-3 = "Baixo" ∧
    a.avaliar_risco_corrosao_ac 20.001e-3 = "Moderado" ∧
    a.avaliar_risco_corrosao_ac 99.999e-3 = "Moderado" ∧
    a.avaliar_risco_corrosao_ac 100.001e-3 = "Muito Alto" := by
  refine ⟨fun J => ?_, ?_, ?_, ?_, ?_⟩
  · unfold AnaliseInterferencia.avaliar_risco_corrosao_ac
    split_ifs with h1 h2
    · exact ⟨⟨fun _ => h1, fun _ => rfl⟩,
        ⟨fun h => absurd h (by decide), fun h => absurd h1 (not_lt.2 h.1)⟩,
        ⟨fun h => absurd h (by decide),
          fun h => absurd h1 (not_lt.2 (le_trans (by norm_num) h))⟩⟩
    · exact ⟨⟨fun h => absurd h (by decide), fun h => absurd h h1⟩,
        ⟨fun _ => ⟨not_lt.1 h1, h2⟩, fun _ => rfl⟩,
        ⟨fun h => absurd h (by decide), fun h => absurd h2 (not_lt.2 h)⟩⟩
    · exact ⟨⟨fun h => absurd h (by decide), fun h => absurd h h1⟩,
        ⟨fun h => absurd h (by decide), fun h => absurd h.2 h2⟩,
        ⟨fun _ => not_lt.1 h2, fun _ => rfl⟩⟩
  · unfold AnaliseInterferencia.avaliar_risco_corrosao_ac
    rw [if_pos (by norm_num)]
  · unfold AnaliseInterferencia.avaliar_risco_corrosao_ac
    rw [if_neg (by norm_num), if_pos (by norm_num)]
  · unfold AnaliseInterferencia.avaliar_risco_corrosao_ac
    rw [if_neg (by norm_num), if_pos (by norm_num)]
  · unfold AnaliseInterferencia.avaliar_risco_corrosao_ac
    rw [if_neg (by norm_num), if_neg (by norm_num)]

/-- C7 (negative result): `resistividade_equivalente_uniforme` performs no
input validation.  For a non-positive layer resistivity the Python code takes
`np.sqrt` of a negative number and silently returns NaN — no `DomainError` is
raised before (or after) the derivation.  In the float-tracking embedding the
NaN outcome is the `none` value, reached through the `np.sqrt` primitive, for
either offending layer. -/
theorem resistividade_equivalente_nan_sem_erro :
    Solo.resistividade_equivalente_uniformeF ⟨⟨-1, 100, 2, 10⟩⟩ 60 = none ∧
    Solo.resistividade_equivalente_uniformeF ⟨⟨100, -1, 2, 10⟩⟩ 60 = none := by
  constructor <;>
    norm_num [Solo.resistividade_equivalente_uniformeF, divF, sqrtF, Option.bind]

/-- C8 (negative result): constructing a pipeline whose wall thickness exceeds
its outer radius raises nothing (`Duto.__init__` has no validation), and the
tubular geometric-mean-radius computation then takes `np.log` of a negative
ratio and produces NaN (`none` in the float-tracking embedding) rather than a
`DomainError`. -/
theorem rmg_tubular_nan_geometria_degenerada :
    duto_degenerado.raio_interno < 0 ∧
    duto_degenerado.raio_externo ≤ duto_degenerado.espessura_parede ∧
    duto_degenerado.calcular_rmg_tubularF = none := by
  refine ⟨?_, ?_, ?_⟩
  · norm_num [duto_degenerado, Duto.raio_interno, Duto.raio_externo]
  · norm_num [duto_degenerado, Duto.raio_externo]
  · norm_num [Duto.calcular_rmg_tubularF, duto_degenerado, Duto.raio_interno, Duto.raio_externo,
      logF, divF, Option.bind]

/-- C9: in the assembled report the characteristic length equals 1/Re(γ)
whenever Re(γ) > 0 and is the infinite sentinel (`np.inf`, not an exception)
whenever Re(γ) ≤ 0; the embedded report expression is a total function, so no
exception path exists. -/
theorem comprimento_caracteristico_sentinela (gamma : ℂ) :
    (0 < gamma.re →
      comprimento_caracteristico_relatorio gamma =
        ComprimentoCaracteristico.finito (1 / gamma.re)) ∧
    (gamma.re ≤ 0 →
      comprimento_caracteristico_relatorio gamma = ComprimentoCaracteristico.infinito) := by
  constructor
  · intro h
    rw [comprimento_caracteristico_relatorio, if_pos h]
  · intro h
    rw [comprimento_caracteristico_relatorio, if_neg (not_lt.2 h)]

/-- The mutual impedance reads only the conductor position (never its
current) and only the soil of the transmission line (never the conductor
list), so updating currents leaves it unchanged. -/
theorem impedancia_mutua_ignora_corrente (cabos1 cabos2 : List Cabo) (solo : Solo)
    (c : Cabo) (k : ℝ) (duto : Duto) :
    LinhaTransmissao.calcular_impedancia_mutua_carson_fechada ⟨cabos1, solo⟩
        { c with corrente := (k : ℂ) * c.corrente } duto =
      LinhaTransmissao.calcular_impedancia_mutua_carson_fechada ⟨cabos2, solo⟩ c duto := rfl

/-- C3: scaling every conductor current by a real factor k scales the total
induced voltage of `calcular_tensao_induzida_total` by exactly k, for every
transmission line with a non-empty conductor list, every pipeline and every
exposure length. -/
theorem tensao_induzida_escala_linear
    (a : AnaliseInterferencia) (k : ℝ) (L : ℝ) (_h : a.lt.cabos ≠ []) :
    AnaliseInterferencia.calcular_tensao_induzida_total ⟨escalar_correntes k a.lt, a.duto⟩ L =
      (k : ℂ) * a.calcular_tensao_induzida_total L := by
  obtain ⟨⟨cabos, solo⟩, duto⟩ := a
  simp only [AnaliseInterferencia.calcular_tensao_induzida_total, escalar_correntes,
    List.map_map]
  rw [← List.sum_map_mul_left]
  congr 1
  refine List.map_congr_left fun c _ => ?_
  simp only [Function.comp_apply]
  rw [impedancia_mutua_ignora_corrente
    (cabos.map fun c => { c with corrente := (k : ℂ) * c.corrente }) cabos solo c k duto]
  ring

/-- Concrete single-conductor interference analysis used as a witness input. -/
noncomputable def analise_exemplo : AnaliseInterferencia :=
  ⟨⟨[⟨⟨-33 / 10, 15, 0⟩, 529, 1257 / 100000, "fase"⟩], ⟨⟨100, 1000, 2, 10⟩⟩⟩,
   ⟨⟨0, 0, -3 / 2⟩, 219 / 1000, 13 / 2000, 3 / 1000, "aco"⟩⟩

/-- Witness for C3: doubling the current of the example analysis doubles the
induced voltage over a 1000 m exposure. -/
theorem tensao_induzida_escala_linear_witness :
    analise_exemplo.lt.cabos ≠ [] ∧
    AnaliseInterferencia.calcular_tensao_induzida_total
        ⟨escalar_correntes 2 analise_exemplo.lt, analise_exemplo.duto⟩ 1000 =
      ((2 : ℝ) : ℂ) * analise_exemplo.calcular_tensao_induzida_total 1000 :=
  ⟨by simp [analise_exemplo],
   tensao_induzida_escala_linear analise_exemplo 2 1000 (by simp [analise_exemplo])⟩

/-- Soil chosen for the distance-attenuation counterexample: both layers have
resistivity `5·Ω·μ0` and the relative permittivity is `(99/100)/(Ω²·μ0·ε0)`,
which makes the soil propagation constant come out exactly `1/10 + i`. -/
noncomputable def soloC4 : Solo :=
  ⟨⟨5 * (OMEGA * MU_0), 5 * (OMEGA * MU_0), 2, 99 / 100 / (OMEGA ^ 2 * MU_0 * EPSILON_0)⟩⟩

/-- Conductor at the origin for the distance-attenuation counterexample. -/
noncomputable def caboC4 : Cabo := ⟨⟨0, 0, 0⟩, 529, 1 / 100, "fase"⟩

/-- Pipeline at ground level, horizontal separation `p`, for the
distance-attenuation counterexample. -/
noncomputable def dutoC4 (p : ℝ) : Duto := ⟨⟨p, 0, 0⟩, 219 / 1000, 13 / 2000, 3 / 1000, "aco"⟩

/-- Single-conductor transmission line over `soloC4`. -/
noncomputable def ltC4 : LinhaTransmissao := ⟨[caboC4], soloC4⟩

/-- With the `soloC4` parameters the propagation constant of the closed-form
Carson formula evaluates to exactly `1/10 + i`. -/
theorem gammaC4 :
    csqrt (Complex.I * (OMEGA : ℂ) * (MU_0 : ℂ) / ((5 * (OMEGA * MU_0) : ℝ) : ℂ) -
        ((OMEGA ^ 2 * MU_0 * EPSILON_0 * (99 / 100 / (OMEGA ^ 2 * MU_0 * EPSILON_0)) : ℝ) : ℂ)) =
      ((1 / 10 : ℝ) : ℂ) + Complex.I := by
  have hO2 : OMEGA ^ 2 * MU_0 * EPSILON_0 ≠ 0 := by
    rw [OMEGA, MU_0, EPSILON_0]
    positivity
  have hden : ((5 * (OMEGA * MU_0) : ℝ) : ℂ) ≠ 0 :=
    Complex.ofReal_ne_zero.2
      (ne_of_gt (show (0 : ℝ) < 5 * (OMEGA * MU_0) by rw [OMEGA, MU_0]; positivity))
  have harg : Complex.I * (OMEGA : ℂ) * (MU_0 : ℂ) / ((5 * (OMEGA * MU_0) : ℝ) : ℂ) -
      ((OMEGA ^ 2 * MU_0 * EPSILON_0 * (99 / 100 / (OMEGA ^ 2 * MU_0 * EPSILON_0)) : ℝ) : ℂ) =
      (((1 / 10 : ℝ) : ℂ) + Complex.I) ^ 2 := by
    have h1 : OMEGA ^ 2 * MU_0 * EPSILON_0 * (99 / 100 / (OMEGA ^ 2 * MU_0 * EPSILON_0)) =
        99 / 100 := by
      field_simp
      ring
    have hdiv : Complex.I * (OMEGA : ℂ) * (MU_0 : ℂ) / ((5 * (OMEGA * MU_0) : ℝ) : ℂ) =
        Complex.I / 5 := by
      rw [div_eq_div_iff hden (by norm_num : (5 : ℂ) ≠ 0)]
      push_cast
      ring
    rw [h1, hdiv]
    push_cast
    linear_combination (-1 : ℂ) * Complex.I_sq
  rw [harg]
  refine csqrt_sq _ ?_
  norm_num [Complex.add_re, Complex.ofReal_re, Complex.I_re]

/-- Closed-form value of the mutual impedance in the C4 configuration when
both Struve/Bessel arguments fall in the series branch
(`|u| = √101·p/10 < 0.1`). -/
theorem ZmC4_small (p : ℝ) (hp : 0 < p) (hb : Real.sqrt 101 * p < 1) :
    LinhaTransmissao.calcular_impedancia_mutua_carson_fechada ltC4 caboC4 (dutoC4 p) =
      Complex.I * (OMEGA : ℂ) * (MU_0 : ℂ) / (2 * (Real.pi : ℂ)) *
        (-2 / (((p : ℝ) : ℂ) * (1 - Complex.I / 10)) ^ 2) := by
  have hs0 : (0 : ℝ) < Real.sqrt 101 := Real.sqrt_pos.2 (by norm_num)
  have hrect : (1 : ℂ) - Complex.I / 10 = ((1 : ℝ) : ℂ) + ((-(1 / 10) : ℝ) : ℂ) * Complex.I := by
    push_cast
    ring
  have hfac_ne : (1 : ℂ) - Complex.I / 10 ≠ 0 := by
    rw [hrect]
    intro hcon
    have him := congrArg Complex.im hcon
    simp [Complex.add_im, Complex.ofReal_im, Complex.mul_im, Complex.I_im, Complex.I_re,
      Complex.ofReal_re] at him
  have hu_ne : ((p : ℝ) : ℂ) * (1 - Complex.I / 10) ≠ 0 :=
    mul_ne_zero (Complex.ofReal_ne_zero.2 hp.ne') hfac_ne
  have habs : Complex.abs (((p : ℝ) : ℂ) * (1 - Complex.I / 10)) = Real.sqrt 101 / 10 * p := by
    rw [map_mul, Complex.abs_ofReal, abs_of_pos hp, hrect, Complex.abs_add_mul_I,
      show ((1 : ℝ) ^ 2 + (-(1 / 10)) ^ 2) = 101 * (1 / 10) ^ 2 by norm_num,
      Real.sqrt_mul (by norm_num : (0 : ℝ) ≤ 101), Real.sqrt_sq (by norm_num : (0 : ℝ) ≤ 1 / 10)]
    ring
  have habs_lt : Complex.abs (((p : ℝ) : ℂ) * (1 - Complex.I / 10)) < 0.1 := by
    rw [habs]
    nlinarith
  have habs_neg_lt : Complex.abs (-(((p : ℝ) : ℂ) * (1 - Complex.I / 10))) < 0.1 := by
    rw [Complex.abs.map_neg]
    exact habs_lt
  have hsb1 : struve_bessel_approx (((p : ℝ) : ℂ) * (1 - Complex.I / 10)) =
      ((2 / Real.pi : ℝ) : ℂ) *
        (1 - (((p : ℝ) : ℂ) * (1 - Complex.I / 10)) ^ 2 / 8 +
          (((p : ℝ) : ℂ) * (1 - Complex.I / 10)) ^ 4 / 192) := by
    rw [struve_bessel_approx, if_pos habs_lt]
  have hsb2 : struve_bessel_approx (-(((p : ℝ) : ℂ) * (1 - Complex.I / 10))) =
      ((2 / Real.pi : ℝ) : ℂ) *
        (1 - (((p : ℝ) : ℂ) * (1 - Complex.I / 10)) ^ 2 / 8 +
          (((p : ℝ) : ℂ) * (1 - Complex.I / 10)) ^ 4 / 192) := by
    rw [struve_bessel_approx, if_pos habs_neg_lt]
    ring
  have hrho := resistividade_equivalente_camadas_iguais (5 * (OMEGA * MU_0)) 2
    (99 / 100 / (OMEGA ^ 2 * MU_0 * EPSILON_0)) 60
    (show (0 : ℝ) < 5 * (OMEGA * MU_0) by rw [OMEGA, MU_0]; positivity)
  have hu1 : (((1 / 10 : ℝ) : ℂ) + Complex.I) * (0 - Complex.I * ((p : ℝ) : ℂ)) =
      ((p : ℝ) : ℂ) * (1 - Complex.I / 10) := by
    push_cast
    linear_combination (-(p : ℂ)) * Complex.I_sq
  have hu2 : (((1 / 10 : ℝ) : ℂ) + Complex.I) * (Complex.I * ((p : ℝ) : ℂ)) =
      -(((p : ℝ) : ℂ) * (1 - Complex.I / 10)) := by
    push_cast
    linear_combination (p : ℂ) * Complex.I_sq
  simp only [LinhaTransmissao.calcular_impedancia_mutua_carson_fechada, ltC4, caboC4, dutoC4,
    soloC4, sub_zero, abs_zero, add_zero, zero_add, Complex.ofReal_zero,
    show ((0 : ℝ) ^ 2 = 0) from by norm_num]
  simp only [Real.sqrt_sq hp.le]
  rw [div_self hp.ne', Real.log_one, Complex.ofReal_zero, mul_zero, zero_add]
  rw [hrho, gammaC4, hu1, hu2, hsb1, hsb2]
  congr 1
  rw [mul_neg, div_neg, neg_sq]
  ring

/-- Sum of the two Carson terms when both Struve/Bessel factors take the
asymptotic branch with opposite cosine signs. -/
theorem termo_sum_else (u : ℂ) (hu : u ≠ 0) (E s : ℝ) (hs : s ≠ 0) :
    (Real.pi : ℂ) / (2 * u) * (((2 / Real.pi : ℝ) : ℂ) * ((1 - E * (10 / s) : ℝ) : ℂ)) -
        1 / u ^ 2 +
      (-((Real.pi : ℂ) / (2 * u)) * (((2 / Real.pi : ℝ) : ℂ) * ((1 - E * (-(10 / s)) : ℝ) : ℂ)) -
        1 / u ^ 2) =
    -20 * ((E : ℝ) : ℂ) / (((s : ℝ) : ℂ) * u) - 2 / u ^ 2 := by
  have hpi : ((Real.pi : ℝ) : ℂ) ≠ 0 := Complex.ofReal_ne_zero.2 Real.pi_ne_zero
  have hsc : ((s : ℝ) : ℂ) ≠ 0 := Complex.ofReal_ne_zero.2 hs
  push_cast
  field_simp
  ring

/-- Closed-form value of the mutual impedance in the C4 configuration when
both Struve/Bessel arguments fall in the asymptotic branch
(`|u| = √101·p/10 ≥ 0.1`). -/
theorem ZmC4_large (p : ℝ) (hp : 0 < p) (hb : 1 ≤ Real.sqrt 101 * p) :
    LinhaTransmissao.calcular_impedancia_mutua_carson_fechada ltC4 caboC4 (dutoC4 p) =
      Complex.I * (OMEGA : ℂ) * (MU_0 : ℂ) / (2 * (Real.pi : ℂ)) *
        (-20 * ((Real.exp (-(Real.sqrt 101 / 10 * p)) : ℝ) : ℂ) /
            (((Real.sqrt 101 : ℝ) : ℂ) * (((p : ℝ) : ℂ) * (1 - Complex.I / 10))) -
          2 / (((p : ℝ) : ℂ) * (1 - Complex.I / 10)) ^ 2) := by
  have hs0 : (0 : ℝ) < Real.sqrt 101 := Real.sqrt_pos.2 (by norm_num)
  have hrect : (1 : ℂ) - Complex.I / 10 = ((1 : ℝ) : ℂ) + ((-(1 / 10) : ℝ) : ℂ) * Complex.I := by
    push_cast
    ring
  have hfac_ne : (1 : ℂ) - Complex.I / 10 ≠ 0 := by
    rw [hrect]
    intro hcon
    have him := congrArg Complex.im hcon
    simp [Complex.add_im, Complex.ofReal_im, Complex.mul_im, Complex.I_im, Complex.I_re,
      Complex.ofReal_re] at him
  have hu_ne : ((p : ℝ) : ℂ) * (1 - Complex.I / 10) ≠ 0 :=
    mul_ne_zero (Complex.ofReal_ne_zero.2 hp.ne') hfac_ne
  have habs : Complex.abs (((p : ℝ) : ℂ) * (1 - Complex.I / 10)) = Real.sqrt 101 / 10 * p := by
    rw [map_mul, Complex.abs_ofReal, abs_of_pos hp, hrect, Complex.abs_add_mul_I,
      show ((1 : ℝ) ^ 2 + (-(1 / 10)) ^ 2) = 101 * (1 / 10) ^ 2 by norm_num,
      Real.sqrt_mul (by norm_num : (0 : ℝ) ≤ 101), Real.sqrt_sq (by norm_num : (0 : ℝ) ≤ 1 / 10)]
    ring
  have habs_ge : ¬ Complex.abs (((p : ℝ) : ℂ) * (1 - Complex.I / 10)) < 0.1 := by
    rw [habs, not_lt]
    nlinarith
  have habs_neg_ge : ¬ Complex.abs (-(((p : ℝ) : ℂ) * (1 - Complex.I / 10))) < 0.1 := by
    rw [Complex.abs.map_neg]
    exact habs_ge
  have hure : (((p : ℝ) : ℂ) * (1 - Complex.I / 10)).re = p := by
    have hu_rect : ((p : ℝ) : ℂ) * (1 - Complex.I / 10) =
        ((p : ℝ) : ℂ) + ((-(p / 10) : ℝ) : ℂ) * Complex.I := by
      push_cast
      ring
    rw [hu_rect]
    simp [Complex.add_re, Complex.ofReal_re, Complex.mul_re, Complex.ofReal_im, Complex.I_re,
      Complex.I_im]
  have hcos : Real.cos (Complex.arg (((p : ℝ) : ℂ) * (1 - Complex.I / 10))) =
      10 / Real.sqrt 101 := by
    rw [Complex.cos_arg hu_ne, hure, habs]
    field_simp
    ring
  have hcos2 : Real.cos (Complex.arg (-(((p : ℝ) : ℂ) * (1 - Complex.I / 10)))) =
      -(10 / Real.sqrt 101) := by
    rw [Complex.cos_arg (neg_ne_zero.2 hu_ne), Complex.neg_re, hure, Complex.abs.map_neg, habs]
    field_simp
    ring
  have hsb1 : struve_bessel_approx (((p : ℝ) : ℂ) * (1 - Complex.I / 10)) =
      ((2 / Real.pi : ℝ) : ℂ) *
        ((1 - Real.exp (-(Real.sqrt 101 / 10 * p)) * (10 / Real.sqrt 101) : ℝ) : ℂ) := by
    rw [struve_bessel_approx, if_neg habs_ge, habs, hcos]
  have hsb2 : struve_bessel_approx (-(((p : ℝ) : ℂ) * (1 - Complex.I / 10))) =
      ((2 / Real.pi : ℝ) : ℂ) *
        ((1 - Real.exp (-(Real.sqrt 101 / 10 * p)) * (-(10 / Real.sqrt 101)) : ℝ) : ℂ) := by
    rw [struve_bessel_approx, if_neg habs_neg_ge, Complex.abs.map_neg, habs, hcos2]
  have hrho := resistividade_equivalente_camadas_iguais (5 * (OMEGA * MU_0)) 2
    (99 / 100 / (OMEGA ^ 2 * MU_0 * EPSILON_0)) 60
    (show (0 : ℝ) < 5 * (OMEGA * MU_0) by rw [OMEGA, MU_0]; positivity)
  have hu1 : (((1 / 10 : ℝ) : ℂ) + Complex.I) * (0 - Complex.I * ((p : ℝ) : ℂ)) =
      ((p : ℝ) : ℂ) * (1 - Complex.I / 10) := by
    push_cast
    linear_combination (-(p : ℂ)) * Complex.I_sq
  have hu2 : (((1 / 10 : ℝ) : ℂ) + Complex.I) * (Complex.I * ((p : ℝ) : ℂ)) =
      -(((p : ℝ) : ℂ) * (1 - Complex.I / 10)) := by
    push_cast
    linear_combination (p : ℂ) * Complex.I_sq
  simp only [LinhaTransmissao.calcular_impedancia_mutua_carson_fechada, ltC4, caboC4, dutoC4,
    soloC4, sub_zero, abs_zero, add_zero, zero_add, Complex.ofReal_zero,
    show ((0 : ℝ) ^ 2 = 0) from by norm_num]
  simp only [Real.sqrt_sq hp.le]
  rw [div_self hp.ne', Real.log_one, Complex.ofReal_zero, mul_zero, zero_add]
  rw [hrho, gammaC4, hu1, hu2, hsb1, hsb2]
  congr 1
  rw [mul_neg, div_neg, neg_sq]
  exact termo_sum_else (((p : ℝ) : ℂ) * (1 - Complex.I / 10)) hu_ne
    (Real.exp (-(Real.sqrt 101 / 10 * p))) (Real.sqrt 101) hs0.ne'

/-- The asymptotic-branch kernel factors as `(-2/u)·(10E/s + 1/u)`. -/
theorem S2_fatorado (u : ℂ) (hu : u ≠ 0) (E s : ℝ) (hs : s ≠ 0) :
    -20 * ((E : ℝ) : ℂ) / (((s : ℝ) : ℂ) * u) - 2 / u ^ 2 =
      -2 / u * (((10 * E / s : ℝ) : ℂ) + 1 / u) := by
  have hsc : ((s : ℝ) : ℂ) ≠ 0 := Complex.ofReal_ne_zero.2 hs
  push_cast
  field_simp
  ring

/-- Squared magnitude of the series-branch mutual-impedance kernel. -/
theorem normSq_S1 (p : ℝ) (hp : 0 < p) :
    Complex.normSq (-2 / (((p : ℝ) : ℂ) * (1 - Complex.I / 10)) ^ 2) =
      40000 / (10201 * p ^ 4) := by
  have hrect : (1 : ℂ) - Complex.I / 10 = ((1 : ℝ) : ℂ) + ((-(1 / 10) : ℝ) : ℂ) * Complex.I := by
    push_cast
    ring
  have hfac : Complex.normSq (1 - Complex.I / 10) = 101 / 100 := by
    rw [hrect, Complex.normSq_add_mul_I]
    norm_num
  have h2 : Complex.normSq (-2) = 4 := by
    rw [show ((-2 : ℂ)) = ((-2 : ℝ) : ℂ) from by norm_num, Complex.normSq_ofReal]
    norm_num
  rw [Complex.normSq_div, map_pow, Complex.normSq_mul, Complex.normSq_ofReal, hfac, h2]
  have hpne : p ≠ 0 := hp.ne'
  field_simp
  ring

/-- Squared magnitude of the asymptotic-branch mutual-impedance kernel. -/
theorem normSq_S2 (p : ℝ) (hp : 0 < p) :
    Complex.normSq (-20 * ((Real.exp (-(Real.sqrt 101 / 10 * p)) : ℝ) : ℂ) /
        (((Real.sqrt 101 : ℝ) : ℂ) * (((p : ℝ) : ℂ) * (1 - Complex.I / 10))) -
      2 / (((p : ℝ) : ℂ) * (1 - Complex.I / 10)) ^ 2) =
      400 / (101 * p ^ 2) *
        ((10 * Real.exp (-(Real.sqrt 101 / 10 * p)) / Real.sqrt 101 + 100 / (101 * p)) ^ 2 +
          (10 / (101 * p)) ^ 2) := by
  have hs0 : (0 : ℝ) < Real.sqrt 101 := Real.sqrt_pos.2 (by norm_num)
  have hrect : (1 : ℂ) - Complex.I / 10 = ((1 : ℝ) : ℂ) + ((-(1 / 10) : ℝ) : ℂ) * Complex.I := by
    push_cast
    ring
  have hfac_ne : (1 : ℂ) - Complex.I / 10 ≠ 0 := by
    rw [hrect]
    intro hcon
    have him := congrArg Complex.im hcon
    simp [Complex.add_im, Complex.ofReal_im, Complex.mul_im, Complex.I_im, Complex.I_re,
      Complex.ofReal_re] at him
  have hu_ne : ((p : ℝ) : ℂ) * (1 - Complex.I / 10) ≠ 0 :=
    mul_ne_zero (Complex.ofReal_ne_zero.2 hp.ne') hfac_ne
  have hp101 : ((101 * p : ℝ) : ℂ) ≠ 0 := Complex.ofReal_ne_zero.2 (by positivity)
  have hkey : (((100 : ℝ) : ℂ) + ((10 : ℝ) : ℂ) * Complex.I) *
      (((p : ℝ) : ℂ) * (1 - Complex.I / 10)) = ((101 * p : ℝ) : ℂ) := by
    push_cast
    linear_combination (-(p : ℂ)) * Complex.I_sq
  have hdiv2 : 1 / (((p : ℝ) : ℂ) * (1 - Complex.I / 10)) =
      (((100 : ℝ) : ℂ) + ((10 : ℝ) : ℂ) * Complex.I) / ((101 * p : ℝ) : ℂ) := by
    rw [div_eq_div_iff hu_ne hp101, one_mul, hkey]
  have hfact := S2_fatorado (((p : ℝ) : ℂ) * (1 - Complex.I / 10)) hu_ne
    (Real.exp (-(Real.sqrt 101 / 10 * p))) (Real.sqrt 101) hs0.ne'
  have hM : ((10 * Real.exp (-(Real.sqrt 101 / 10 * p)) / Real.sqrt 101 : ℝ) : ℂ) +
      1 / (((p : ℝ) : ℂ) * (1 - Complex.I / 10)) =
      ((10 * Real.exp (-(Real.sqrt 101 / 10 * p)) / Real.sqrt 101 + 100 / (101 * p) : ℝ) : ℂ) +
        ((10 / (101 * p) : ℝ) : ℂ) * Complex.I := by
    rw [hdiv2]
    have hpc : ((p : ℝ) : ℂ) ≠ 0 := Complex.ofReal_ne_zero.2 hp.ne'
    have hsc : ((Real.sqrt 101 : ℝ) : ℂ) ≠ 0 := Complex.ofReal_ne_zero.2 hs0.ne'
    push_cast
    field_simp
    ring
  rw [hfact, hM, Complex.normSq_mul, Complex.normSq_add_mul_I, Complex.normSq_div,
    Complex.normSq_mul, Complex.normSq_ofReal]
  have h2 : Complex.normSq (-2) = 4 := by
    rw [show ((-2 : ℂ)) = ((-2 : ℝ) : ℂ) from by norm_num, Complex.normSq_ofReal]
    norm_num
  have hfacn : Complex.normSq (1 - Complex.I / 10) = 101 / 100 := by
    rw [hrect, Complex.normSq_add_mul_I]
    norm_num
  rw [h2, hfacn]
  have hpne : p ≠ 0 := hp.ne'
  field_simp
  ring

/-- C4: the magnitude of the closed-form Carson mutual impedance is NOT
strictly decreasing in the horizontal separation.  In the concrete
configuration `ltC4`/`caboC4` (conductor at the origin, pipeline at ground
level, soil `soloC4`), the separations D1 = 0.0985 m and D2 = 0.0996 m
satisfy D1 < D2 yet |Z_m(D1)| < |Z_m(D2)|: crossing the 0.1 branch threshold
of `struve_bessel_approx` makes the magnitude jump upward. -/
theorem impedancia_mutua_nao_monotona :
    |(dutoC4 (197 / 2000)).coordenadas.x - caboC4.coordenadas.x| <
      |(dutoC4 (249 / 2500)).coordenadas.x - caboC4.coordenadas.x| ∧
    Complex.abs (LinhaTransmissao.calcular_impedancia_mutua_carson_fechada ltC4 caboC4
        (dutoC4 (197 / 2000))) <
      Complex.abs (LinhaTransmissao.calcular_impedancia_mutua_carson_fechada ltC4 caboC4
        (dutoC4 (249 / 2500))) := by
  constructor
  · simp only [dutoC4, caboC4, sub_zero]
    rw [abs_of_nonneg (by norm_num : (0 : ℝ) ≤ 197 / 2000),
      abs_of_nonneg (by norm_num : (0 : ℝ) ≤ 249 / 2500)]
    norm_num
  · have hs2 : Real.sqrt 101 ^ 2 = 101 := Real.sq_sqrt (by norm_num)
    have hs0 : (0 : ℝ) < Real.sqrt 101 := Real.sqrt_pos.2 (by norm_num)
    have hb1 : Real.sqrt 101 * (197 / 2000) < 1 := by
      have h := (Real.sqrt_lt' (show (0 : ℝ) < 2000 / 197 by norm_num)).2
        (by norm_num : (101 : ℝ) < (2000 / 197) ^ 2)
      nlinarith
    have hb2 : 1 ≤ Real.sqrt 101 * (249 / 2500) := by
      have h := (Real.le_sqrt (by norm_num : (0 : ℝ) ≤ 2500 / 249)
        (by norm_num : (0 : ℝ) ≤ 101)).2 (by norm_num : ((2500 / 249 : ℝ)) ^ 2 ≤ 101)
      nlinarith
    rw [ZmC4_small (197 / 2000) (by norm_num) hb1, ZmC4_large (249 / 2500) (by norm_num) hb2,
      map_mul, map_mul]
    refine mul_lt_mul_of_pos_left ?_ ?_
    · rw [Complex.abs_apply, Complex.abs_apply]
      refine Real.sqrt_lt_sqrt (Complex.normSq_nonneg _) ?_
      rw [normSq_S1 (197 / 2000) (by norm_num), normSq_S2 (249 / 2500) (by norm_num)]
      set s := Real.sqrt 101 with hsd
      set E := Real.exp (-(s / 10 * (249 / 2500))) with hEd
      have hs_lo : (10.0498 : ℝ) ≤ s := by nlinarith
      have hs_hi : s ≤ (10.05 : ℝ) := by nlinarith
      have hE_lo : (0.8999 : ℝ) ≤ E := by
        have h1 := Real.add_one_le_exp (-(s / 10 * (249 / 2500)))
        nlinarith
      have hA : (0.895 : ℝ) ≤ 10 * E / s := by
        rw [le_div_iff hs0]
        nlinarith
      have hM : (118 : ℝ) ≤
          (10 * E / s + 100 / (101 * (249 / 2500))) ^ 2 + (10 / (101 * (249 / 2500))) ^ 2 := by
        nlinarith [sq_nonneg (10 * E / s - 0.895)]
      have hQ : (399 : ℝ) ≤ 400 / (101 * ((249 : ℝ) / 2500) ^ 2) := by norm_num
      have hprod : (399 : ℝ) * 118 ≤
          400 / (101 * ((249 : ℝ) / 2500) ^ 2) *
            ((10 * E / s + 100 / (101 * (249 / 2500))) ^ 2 + (10 / (101 * (249 / 2500))) ^ 2) :=
        mul_le_mul hQ hM (by norm_num) (by norm_num)
      have hL : (40000 : ℝ) / (10201 * ((197 : ℝ) / 2000) ^ 4) < 47082 := by norm_num
      linarith
    · exact Complex.abs.pos (div_ne_zero
        (mul_ne_zero (mul_ne_zero Complex.I_ne_zero
          (Complex.ofReal_ne_zero.2 (ne_of_gt (show (0 : ℝ) < OMEGA by rw [OMEGA]; positivity))))
          (Complex.ofReal_ne_zero.2 (ne_of_gt (show (0 : ℝ) < MU_0 by rw [MU_0]; positivity))))
        (mul_ne_zero two_ne_zero (Complex.ofReal_ne_zero.2 Real.pi_ne_zero)))

/-- Evaluation of `struve_bessel_approx` at a non-negative real argument in
the series regime. -/
theorem struve_bessel_approx_ofReal_series (x : ℝ) (h0 : 0 ≤ x) (hx : x < 0.1) :
    struve_bessel_approx (x : ℂ) =
      ((2 / Real.pi * (1 - x ^ 2 / 8 + x ^ 4 / 192) : ℝ) : ℂ) := by
  rw [struve_bessel_approx, if_pos (by rwa [Complex.abs_ofReal, abs_of_nonneg h0])]
  push_cast
  ring

/-- Evaluation of `struve_bessel_approx` at a non-negative real argument in
the asymptotic regime (`arg = 0`, so the cosine factor is 1). -/
theorem struve_bessel_approx_ofReal_asymp (x : ℝ) (h0 : 0 ≤ x) (hx : ¬ x < 0.1) :
    struve_bessel_approx (x : ℂ) = ((2 / Real.pi * (1 - Real.exp (-x)) : ℝ) : ℂ) := by
  rw [struve_bessel_approx, if_neg (by rwa [Complex.abs_ofReal, abs_of_nonneg h0])]
  rw [Complex.abs_ofReal, abs_of_nonneg h0, Complex.arg_ofReal_of_nonneg h0, Real.cos_zero,
    mul_one]
  push_cast
  ring

/-- C2 (counterexample): the two branches of `struve_bessel_approx` do NOT
agree to 1e-3 across the threshold: at the real arguments 0.0999 and 0.1001
the values differ by more than 0.5 in magnitude, because the asymptotic-style
branch drops to ≈ (2/π)(1−e^{-|u|}) ≈ 0.061 while the series branch is
≈ 2/π ≈ 0.636. -/
theorem struve_bessel_continuidade_counterexample :
    ¬ (Complex.abs (struve_bessel_approx ((0.0999 : ℝ) : ℂ) -
        struve_bessel_approx ((0.1001 : ℝ) : ℂ)) < 1e-3) := by
  rw [struve_bessel_approx_ofReal_series 0.0999 (by norm_num) (by norm_num),
    struve_bessel_approx_ofReal_asymp 0.1001 (by norm_num) (by norm_num),
    ← Complex.ofReal_sub, Complex.abs_ofReal, not_lt]
  have hE : (0.8999 : ℝ) ≤ Real.exp (-0.1001) := by
    nlinarith [Real.add_one_le_exp (-0.1001 : ℝ)]
  have heq : 2 / Real.pi * (1 - (0.0999 : ℝ) ^ 2 / 8 + (0.0999 : ℝ) ^ 4 / 192) -
      2 / Real.pi * (1 - Real.exp (-0.1001)) =
      2 / Real.pi * (Real.exp (-0.1001) - (0.0999 : ℝ) ^ 2 / 8 + (0.0999 : ℝ) ^ 4 / 192) := by
    ring
  have ht : (0.898 : ℝ) ≤
      Real.exp (-0.1001) - (0.0999 : ℝ) ^ 2 / 8 + (0.0999 : ℝ) ^ 4 / 192 := by
    nlinarith
  rw [heq, abs_of_nonneg (mul_nonneg (by positivity) (by linarith)), div_mul_eq_mul_div,
    le_div_iff Real.pi_pos]
  nlinarith [Real.pi_lt_d2]

/-- C2 (amended): across the 0.1 threshold the two branch values of
`struve_bessel_approx` differ by less than 0.6 in magnitude (but not by less
than 1e-3: the branch boundary is discontinuous). -/
theorem struve_bessel_salto_limitado :
    Complex.abs (struve_bessel_approx ((0.0999 : ℝ) : ℂ) -
      struve_bessel_approx ((0.1001 : ℝ) : ℂ)) < 0.6 := by
  rw [struve_bessel_approx_ofReal_series 0.0999 (by norm_num) (by norm_num),
    struve_bessel_approx_ofReal_asymp 0.1001 (by norm_num) (by norm_num),
    ← Complex.ofReal_sub, Complex.abs_ofReal]
  have hE : (0.8999 : ℝ) ≤ Real.exp (-0.1001) := by
    nlinarith [Real.add_one_le_exp (-0.1001 : ℝ)]
  have hmul : Real.exp (-0.1001) * Real.exp (0.1001) = 1 := by
    rw [← Real.exp_add]
    norm_num
  have hEu : Real.exp (-0.1001) ≤ 0.91 := by
    nlinarith [Real.add_one_le_exp (0.1001 : ℝ), Real.exp_pos (0.1001 : ℝ)]
  have heq : 2 / Real.pi * (1 - (0.0999 : ℝ) ^ 2 / 8 + (0.0999 : ℝ) ^ 4 / 192) -
      2 / Real.pi * (1 - Real.exp (-0.1001)) =
      2 / Real.pi * (Real.exp (-0.1001) - (0.0999 : ℝ) ^ 2 / 8 + (0.0999 : ℝ) ^ 4 / 192) := by
    ring
  have ht : (0.898 : ℝ) ≤
      Real.exp (-0.1001) - (0.0999 : ℝ) ^ 2 / 8 + (0.0999 : ℝ) ^ 4 / 192 := by
    nlinarith
  have htu : Real.exp (-0.1001) - (0.0999 : ℝ) ^ 2 / 8 + (0.0999 : ℝ) ^ 4 / 192 ≤ 0.909 := by
    nlinarith
  rw [heq, abs_of_nonneg (mul_nonneg (by positivity) (by linarith)), div_mul_eq_mul_div,
    div_lt_iff Real.pi_pos]
  nlinarith [Real.pi_gt_d2]

/-- C1 (counterexample): at u = 1/20 both piecewise functions take their
series branch, yet `struve_bessel_propria` (the Carson correction used inside
`Duto.calcular_impedancia_propria`) differs from `struve_bessel_approx` (the
one of the mutual-impedance path) by the quartic term (2/π)·u⁴/192 ≠ 0. -/
theorem struve_bessel_propria_ne_mutua_counterexample :
    struve_bessel_propria ((1 / 20 : ℝ) : ℂ) ≠ struve_bessel_approx ((1 / 20 : ℝ) : ℂ) := by
  have hb : Complex.abs ((1 / 20 : ℝ) : ℂ) < 0.1 := by
    rw [Complex.abs_ofReal, abs_of_nonneg (by norm_num : (0 : ℝ) ≤ 1 / 20)]
    norm_num
  rw [struve_bessel_propria, struve_bessel_approx, if_pos hb, if_pos hb]
  intro h
  have hne : ((2 / Real.pi : ℝ) : ℂ) ≠ 0 := by
    rw [Complex.ofReal_ne_zero]
    positivity
  have h2 := mul_left_cancel₀ hne h
  have h3 : (((1 / 20 : ℝ) : ℂ)) ^ 4 = 0 := by
    linear_combination (-192 : ℂ) * h2
  rw [pow_eq_zero_iff (by norm_num : (4 : ℕ) ≠ 0), Complex.ofReal_eq_zero] at h3
  norm_num at h3

/-- C1 (amended): on the series branch (|u| < 0.1) the Carson correction of
the self-impedance computation equals `struve_bessel_approx u` minus the
quartic term (2/π)·u⁴/192; the two piecewise functions are not identical. -/
theorem struve_bessel_propria_eq_mutua_sub_quartico (u : ℂ) (h : Complex.abs u < 0.1) :
    struve_bessel_propria u =
      struve_bessel_approx u - ((2 / Real.pi : ℝ) : ℂ) * u ^ 4 / 192 := by
  rw [struve_bessel_propria, struve_bessel_approx, if_pos h, if_pos h]
  ring

/-- Witness for the amended C1 statement at u = 1/20. -/
theorem struve_bessel_propria_eq_mutua_sub_quartico_witness :
    Complex.abs ((1 / 20 : ℝ) : ℂ) < 0.1 ∧
    struve_bessel_propria ((1 / 20 : ℝ) : ℂ) =
      struve_bessel_approx ((1 / 20 : ℝ) : ℂ) -
        ((2 / Real.pi : ℝ) : ℂ) * ((1 / 20 : ℝ) : ℂ) ^ 4 / 192 := by
  have hb : Complex.abs ((1 / 20 : ℝ) : ℂ) < 0.1 := by
    rw [Complex.abs_ofReal, abs_of_nonneg (by norm_num : (0 : ℝ) ≤ 1 / 20)]
    norm_num
  exact ⟨hb, struve_bessel_propria_eq_mutua_sub_quartico _ hb⟩

/-- Witness for C9 at γ = 2 (finite case) and γ = −2 (sentinel case). -/
theorem comprimento_caracteristico_sentinela_witness :
    comprimento_caracteristico_relatorio 2 =
      ComprimentoCaracteristico.finito (1 / (2 : ℂ).re) ∧
    comprimento_caracteristico_relatorio (-2) = ComprimentoCaracteristico.infinito :=
  ⟨(comprimento_caracteristico_sentinela 2).1 (by norm_num),
   (comprimento_caracteristico_sentinela (-2)).2 (by norm_num)⟩
